import Mathlib

/-!
Verification of the travel_app repository's core engines against its
natural-language specification.

The file shallowly embeds the deterministic logic of
`itinerary.py` (day allocation, slot-based attraction picking, day-record
construction, temporal phrase resolution) and `flight_utils.py`
(`summarize_skyexperts` offer normalization, ranking and summarization)
as executable Lean definitions, and proves or refutes the spec's claims
about them.

Modelling conventions:
* Python `int` is `Int`/`Nat`; Python floats (offer prices) are modelled
  by `ℚ` — the ranking logic under scrutiny is order-generic.
* Python `dict` (insertion-ordered) is an association list
  `List (String × Int)` with Python's insert-or-update semantics.
* Python exceptions are `Except String`; a function that cannot raise on
  the modelled domain is total.
* `datetime.date` values are modelled by their proleptic Gregorian
  ordinal (`datetime.toordinal`), an `Int` valid in
  `[1, 3652059]` (`0001-01-01` .. `9999-12-31`), matching CPython's
  documented range; `timedelta(days=n)` construction overflows for
  `|n| > 999999999`, also per CPython's documented limits.
-/

/-! ## Day allocation: `itinerary.py`, `split_days_among_cities` (lines 197-209)

The Python function builds a dict `city_day_counts` mapping each city to
`min_days` (2 if `total_days >= n * 2` else 1) and then hands out the
remaining days one at a time in a `while remaining_days > 0` loop at key
`cities[idx % n]`.  The dict is modelled as an insertion-ordered
association list with Python dict semantics: assignment updates the
first (unique) occurrence of the key in place or appends, lookup returns
the value at the key, `+= 1` bumps the value at a present key (in the
source the incremented key is always present, since every element of
`cities` was inserted first; Python would raise `KeyError` otherwise).
For an empty city list and a positive day count the source raises
`ZeroDivisionError` at `idx % n`; every theorem below therefore assumes
a non-empty city list, exactly as the spec's TripRequest invariant
guarantees. -/

/-- One Python dict entry assignment `d[k] = v`: update the key in place
if present (keeping its position), else append at the end. -/
def dictInsert : List (String × Int) → String → Int → List (String × Int)
  | [], k, v => [(k, v)]
  | p :: rest, k, v => if p.1 = k then (k, v) :: rest else p :: dictInsert rest k v

/-- Python dict lookup `d[k]` (the claims only ever look up present keys;
an absent key yields the junk value 0 rather than Python's `KeyError`). -/
def dictGet : List (String × Int) → String → Int
  | [], _ => 0
  | p :: rest, k => if p.1 = k then p.2 else dictGet rest k

/-- Python `d[k] += 1` for a key that is present in the dict. -/
def dictIncr : List (String × Int) → String → List (String × Int)
  | [], _ => []
  | p :: rest, k => (if p.1 = k then (p.1, p.2 + 1) else p) :: dictIncr rest k

/-- The `while remaining_days > 0` loop of `split_days_among_cities`,
with `fuel` the number of remaining iterations (`remaining_days` at entry,
which decreases by exactly one per iteration). -/
def distribLoop (cities : List String) (d : List (String × Int)) :
    Nat → Nat → List (String × Int)
  | 0, _ => d
  | Nat.succ m, idx =>
      distribLoop cities (dictIncr d (cities.getD (idx % cities.length) "")) m (idx + 1)

/-- `itinerary.py` lines 197-209, `split_days_among_cities`. -/
def split_days_among_cities (cities : List String) (total_days : Int) :
    List (String × Int) :=
  let n := cities.length
  let min_days : Int := if total_days ≥ (n : Int) * 2 then 2 else 1
  let d0 := cities.foldl (fun d c => dictInsert d c min_days) []
  distribLoop cities d0 (total_days - min_days * n).toNat 0

/-- Sum of the values of a day-split dict (`sum(city_day_counts.values())`). -/
def valSum (d : List (String × Int)) : Int :=
  (d.map Prod.snd).sum

/-! ### Association-list lemmas -/

theorem dictIncr_keys (d : List (String × Int)) (k : String) :
    (dictIncr d k).map Prod.fst = d.map Prod.fst := by
  induction d with
  | nil => rfl
  | cons p rest ih =>
      by_cases h : p.1 = k <;> simp [dictIncr, h, ih]

theorem dictIncr_of_not_mem (d : List (String × Int)) (k : String)
    (h : k ∉ d.map Prod.fst) : dictIncr d k = d := by
  induction d with
  | nil => rfl
  | cons p rest ih =>
      simp only [List.map_cons, List.mem_cons, not_or] at h
      have hp : p.1 ≠ k := fun hc => h.1 hc.symm
      simp [dictIncr, hp, ih h.2]

theorem dictGet_dictIncr_ne (d : List (String × Int)) (k k' : String) (hne : k' ≠ k) :
    dictGet (dictIncr d k) k' = dictGet d k' := by
  induction d with
  | nil => rfl
  | cons p rest ih =>
      by_cases h : p.1 = k
      · have h2 : p.1 ≠ k' := fun hc => hne (hc.symm.trans h)
        simp [dictIncr, dictGet, h, h2, ih, Ne.symm hne]
      · by_cases h3 : p.1 = k' <;> simp [dictIncr, dictGet, h, h3, ih, hne]

theorem dictGet_dictIncr_self (d : List (String × Int)) (k : String)
    (hmem : k ∈ d.map Prod.fst) : dictGet (dictIncr d k) k = dictGet d k + 1 := by
  induction d with
  | nil => simp at hmem
  | cons p rest ih =>
      by_cases h : p.1 = k
      · simp [dictIncr, dictGet, h]
      · simp only [List.map_cons, List.mem_cons] at hmem
        rcases hmem with hmem | hmem
        · exact absurd hmem.symm h
        · simp [dictIncr, dictGet, h, ih hmem]

theorem valSum_dictIncr (d : List (String × Int)) (k : String)
    (hnd : (d.map Prod.fst).Nodup) (hmem : k ∈ d.map Prod.fst) :
    valSum (dictIncr d k) = valSum d + 1 := by
  induction d with
  | nil => simp at hmem
  | cons p rest ih =>
      simp only [List.map_cons, List.nodup_cons] at hnd
      simp only [List.map_cons, List.mem_cons] at hmem
      by_cases h : p.1 = k
      · have hrest : dictIncr rest k = rest :=
          dictIncr_of_not_mem rest k (fun hc => hnd.1 (h ▸ hc))
        simp only [dictIncr, h, if_true, valSum, List.map_cons, List.sum_cons, hrest]
        ring
      · rcases hmem with hmem | hmem
        · exact absurd hmem.symm h
        · have := ih hnd.2 hmem
          simp only [valSum] at this ⊢
          simp only [dictIncr, h, if_false]
          simp only [List.map_cons, List.sum_cons]
          omega

/-! ### Loop lemmas for `distribLoop` -/

theorem distribLoop_keys (cities : List String) (d : List (String × Int))
    (fuel idx : Nat) :
    (distribLoop cities d fuel idx).map Prod.fst = d.map Prod.fst := by
  induction fuel generalizing d idx with
  | zero => rfl
  | succ m ih => rw [distribLoop, ih, dictIncr_keys]

/-- The loop peeled from the back: running `m + 1` iterations is running `m`
iterations and then bumping the city indexed by the final loop counter. -/
theorem distribLoop_succ (cities : List String) (d : List (String × Int))
    (m idx : Nat) :
    distribLoop cities d (m + 1) idx =
      dictIncr (distribLoop cities d m idx)
        (cities.getD ((idx + m) % cities.length) "") := by
  induction m generalizing d idx with
  | zero => simp [distribLoop]
  | succ m ih =>
      rw [distribLoop, ih, distribLoop]
      have h : idx + 1 + m = idx + (m + 1) := by omega
      rw [h]

theorem valSum_distribLoop (cities : List String) (d : List (String × Int))
    (fuel idx : Nat) (hne : cities ≠ [])
    (hkeys : d.map Prod.fst = cities) (hnd : cities.Nodup) :
    valSum (distribLoop cities d fuel idx) = valSum d + fuel := by
  induction fuel generalizing d idx with
  | zero => simp [distribLoop]
  | succ m ih =>
      rw [distribLoop]
      have hlen : 0 < cities.length := List.length_pos.mpr hne
      have hmem : cities.getD (idx % cities.length) "" ∈ cities := by
        rw [List.getD_eq_getElem cities "" (Nat.mod_lt idx hlen)]
        exact List.getElem_mem _
      have hkeys' : (dictIncr d (cities.getD (idx % cities.length) "")).map Prod.fst
          = cities := by rw [dictIncr_keys, hkeys]
      rw [ih _ _ hkeys']
      rw [valSum_dictIncr d _ (hkeys ▸ hnd) (hkeys ▸ hmem)]
      omega

theorem mem_dictIncr (d : List (String × Int)) (k : String) :
    ∀ p ∈ dictIncr d k, ∃ q ∈ d, q.2 ≤ p.2 := by
  induction d with
  | nil => intro p hp; simp [dictIncr] at hp
  | cons q rest ih =>
      intro p hp
      simp only [dictIncr] at hp
      rcases List.mem_cons.mp hp with hp | hp
      · refine ⟨q, by simp, ?_⟩
        by_cases hq : q.1 = k <;> simp only [hq, if_true, if_false] at hp <;>
          rw [hp] <;> simp
      · rcases ih p hp with ⟨r, hr, hrle⟩
        exact ⟨r, by simp [hr], hrle⟩

theorem mindays_distribLoop (cities : List String) (d : List (String × Int))
    (fuel idx : Nat) (v : Int) (h : ∀ p ∈ d, v ≤ p.2) :
    ∀ p ∈ distribLoop cities d fuel idx, v ≤ p.2 := by
  induction fuel generalizing d idx with
  | zero => exact h
  | succ m ih =>
      rw [distribLoop]
      apply ih
      intro p hp
      rcases mem_dictIncr d _ p hp with ⟨q, hq, hqle⟩
      exact le_trans (h q hq) hqle

/-! ### The initial dict `{c: min_days for c in cities}` -/

theorem foldl_dictInsert (cities : List String) (v : Int) :
    ∀ acc : List (String × Int), (∀ c ∈ cities, c ∉ acc.map Prod.fst) →
      cities.Nodup →
      cities.foldl (fun d c => dictInsert d c v) acc =
        acc ++ cities.map (fun c => (c, v)) := by
  induction cities with
  | nil => intro acc _ _; simp
  | cons c rest ih =>
      intro acc hacc hnd
      have hins : dictInsert acc c v = acc ++ [(c, v)] := by
        have hnotin : c ∉ acc.map Prod.fst := hacc c (by simp)
        clear hacc hnd ih
        induction acc with
        | nil => rfl
        | cons p accRest ihp =>
            simp only [List.map_cons, List.mem_cons, not_or] at hnotin
            have hp : p.1 ≠ c := fun hc => hnotin.1 hc.symm
            simp [dictInsert, hp, ihp hnotin.2]
      simp only [List.foldl_cons, hins]
      rw [ih (acc ++ [(c, v)]) ?_ (List.nodup_cons.mp hnd).2]
      · simp
      · intro c' hc'
        simp only [List.map_append, List.mem_append]
        push_neg
        constructor
        · exact fun hc => hacc c' (by simp [hc']) hc
        · intro hc
          simp only [List.map_cons, List.map_nil, List.mem_singleton] at hc
          exact (List.nodup_cons.mp hnd).1 (hc ▸ hc')

theorem dictGet_const_map (cities : List String) (v : Int) (k : String)
    (hmem : k ∈ cities) :
    dictGet (cities.map (fun c => (c, v))) k = v := by
  induction cities with
  | nil => simp at hmem
  | cons c rest ih =>
      by_cases h : c = k
      · simp [dictGet, h]
      · rcases List.mem_cons.mp hmem with hmem | hmem
        · exact absurd hmem.symm h
        · simp [dictGet, h, ih hmem]

theorem map_const_snd_sum (cities : List String) (v : Int) :
    valSum (cities.map (fun c => (c, v))) = cities.length * v := by
  induction cities with
  | nil => simp [valSum]
  | cons c rest ih =>
      simp only [valSum, List.map_cons, List.map_map, List.sum_cons] at *
      rw [ih]
      simp only [List.length_cons]
      push_cast
      ring

/-! ### Counting round-robin hits -/

/-- How many of the loop counters `0, 1, …, fuel-1` hit city index `i`
(counters are taken mod the number of cities). -/
def countHits (n i : Nat) : Nat → Nat
  | 0 => 0
  | m + 1 => countHits n i m + (if m % n = i then 1 else 0)

/-- Closed form of `countHits` at start index 0: each city gets
`fuel / n` hits, and the first `fuel % n` cities get one extra. -/
theorem countHits_closed (n i : Nat) (hn : 0 < n) (hi : i < n) :
    ∀ fuel, countHits n i fuel = fuel / n + (if i < fuel % n then 1 else 0) := by
  intro fuel
  induction fuel with
  | zero => simp [countHits]
  | succ m ih =>
      rw [countHits, ih]
      by_cases hc : m % n + 1 = n
      · have hm : m = n * (m / n) + m % n := (Nat.div_add_mod m n).symm
        have hmul : (m / n + 1) * n = n * (m / n) + n := by ring
        have h1 : m + 1 = (m / n + 1) * n := by omega
        have hdiv : (m + 1) / n = m / n + 1 := by
          rw [h1, Nat.mul_div_cancel _ hn]
        have hmod : (m + 1) % n = 0 := by
          rw [h1, Nat.mul_mod_left]
        rw [hdiv, hmod]
        have hmn : m % n < n := Nat.mod_lt m hn
        split_ifs <;> omega
      · have hmn : m % n < n := Nat.mod_lt m hn
        have hm : m = m % n + n * (m / n) := by
          have := (Nat.div_add_mod m n).symm
          omega
        have h1 : m + 1 = (m % n + 1) + n * (m / n) := by omega
        have hdiv : (m + 1) / n = m / n := by
          rw [h1, Nat.add_mul_div_left _ _ hn, Nat.div_eq_of_lt (by omega)]
          omega
        have hmod : (m + 1) % n = m % n + 1 := by
          rw [h1, Nat.add_mul_mod_self_left, Nat.mod_eq_of_lt (by omega)]
        rw [hdiv, hmod]
        split_ifs <;> omega

/-- Value of city `i` after the whole distribution loop, in terms of its
initial value and the number of round-robin hits. -/
theorem dictGet_distribLoop (cities : List String) (hnd : cities.Nodup)
    (hne : cities ≠ []) (d : List (String × Int))
    (hkeys : d.map Prod.fst = cities) (i : Nat) (hi : i < cities.length) :
    ∀ fuel, dictGet (distribLoop cities d fuel 0) (cities.get ⟨i, hi⟩) =
      dictGet d (cities.get ⟨i, hi⟩) + countHits cities.length i fuel := by
  intro fuel
  induction fuel with
  | zero => simp [distribLoop, countHits]
  | succ m ih =>
      have hlen : 0 < cities.length := List.length_pos.mpr hne
      have hml : m % cities.length < cities.length := Nat.mod_lt m hlen
      rw [distribLoop_succ, countHits]
      have hget : cities.getD ((0 + m) % cities.length) "" =
          cities.get ⟨m % cities.length, hml⟩ := by
        rw [Nat.zero_add, List.getD_eq_getElem cities "" hml]
        rfl
      rw [hget]
      by_cases hcase : m % cities.length = i
      · have heq : cities.get ⟨m % cities.length, hml⟩ = cities.get ⟨i, hi⟩ := by
          congr 1
          exact Fin.ext hcase
        rw [heq, dictGet_dictIncr_self _ _ ?_, ih]
        · simp only [hcase, if_true]
          omega
        · rw [distribLoop_keys, hkeys]
          exact List.get_mem cities i hi
      · have hneq : cities.get ⟨i, hi⟩ ≠ cities.get ⟨m % cities.length, hml⟩ := by
          intro hc
          have hfin := (List.Nodup.get_inj_iff hnd).mp hc.symm
          exact hcase (congrArg Fin.val hfin)
      
        rw [dictGet_dictIncr_ne _ _ _ hneq, ih]
        simp [hcase]

/-! ### Day-split claim theorems -/

/-- `min_days` as computed at `itinerary.py` line 200. -/
def minDaysOf (cities : List String) (t : Int) : Int :=
  if t ≥ (cities.length : Int) * 2 then 2 else 1

/-- `remaining_days` as computed at line 203, clamped at 0 (the
`while remaining_days > 0` loop body never runs for a negative value). -/
def remainderOf (cities : List String) (t : Int) : Nat :=
  (t - minDaysOf cities t * cities.length).toNat

/-- The (amended) specification of `split_days_among_cities`: one entry per
requested city in request order; the values sum to the requested total
whenever `total_days ≥ city_count` (not unconditionally); every city gets at
least `min_days` (2 if `total_days ≥ 2·city_count`, else 1); and the
remainder is distributed round-robin starting from the first city, so city
`i` receives `min_days + remainder / n` days plus one extra day exactly when
`i < remainder % n`. -/
def daySplitSpec (cities : List String) (t : Int) : Prop :=
  (split_days_among_cities cities t).map Prod.fst = cities ∧
  ((cities.length : Int) ≤ t → valSum (split_days_among_cities cities t) = t) ∧
  (∀ p ∈ split_days_among_cities cities t, minDaysOf cities t ≤ p.2) ∧
  (∀ i : Fin cities.length,
      dictGet (split_days_among_cities cities t) (cities.get i) =
        minDaysOf cities t + (remainderOf cities t / cities.length : Nat) +
          (if (i : Nat) < remainderOf cities t % cities.length then 1 else 0))

/-- C1 (amended): for every non-empty duplicate-free city list, the day
allocation has one entry per city, respects the per-city minimum, distributes
the remainder round-robin from the first city, and sums to the requested
total whenever the total is at least the number of cities.  (As stated the
claim is false: for `total_days < city_count` each city still gets one day
and the sum exceeds the total — see the counterexample.) -/
theorem C1_day_split_spec (cities : List String) (t : Int)
    (hne : cities ≠ []) (hnd : cities.Nodup) : daySplitSpec cities t := by
  have hlen : 0 < cities.length := List.length_pos.mpr hne
  have hd0 : cities.foldl (fun d c => dictInsert d c (minDaysOf cities t)) [] =
      cities.map (fun c => (c, minDaysOf cities t)) := by
    have := foldl_dictInsert cities (minDaysOf cities t) [] (by simp) hnd
    simpa using this
  have hsplit : split_days_among_cities cities t =
      distribLoop cities (cities.map (fun c => (c, minDaysOf cities t)))
        (remainderOf cities t) 0 := by
    simp only [split_days_among_cities, remainderOf, minDaysOf]
    simp only [minDaysOf] at hd0
    rw [← hd0]
  have hkeys0 : (cities.map (fun c => (c, minDaysOf cities t))).map Prod.fst
      = cities := by
    rw [List.map_map]
    apply List.map_id''
    intro x
    rfl
  refine ⟨?_, ?_, ?_, ?_⟩
  · rw [hsplit, distribLoop_keys, hkeys0]
  · intro ht
    rw [hsplit, valSum_distribLoop cities _ _ _ hne hkeys0 hnd,
      map_const_snd_sum]
    rw [remainderOf]
    by_cases h2 : t ≥ (cities.length : Int) * 2 <;>
      simp only [minDaysOf, h2, if_true, if_false, ite_true, ite_false] <;>
      omega
  · intro p hp
    rw [hsplit] at hp
    refine mindays_distribLoop cities _ _ _ _ ?_ p hp
    intro q hq
    rcases List.mem_map.mp hq with ⟨c, _, hc⟩
    rw [← hc]
  · intro i
    rw [hsplit, dictGet_distribLoop cities hnd hne _ hkeys0 i.1 i.2,
      countHits_closed cities.length i.1 hlen i.2,
      dictGet_const_map cities _ _ (List.get_mem cities i.1 i.2)]
    push_cast
    ring

/-- C1 counterexample: the claim asserts the values always sum to the total
day count, but for 2 cities and 1 total day the source allocates 1 day to
each city (sum 2 ≠ 1). -/
theorem C1_counterexample :
    valSum (split_days_among_cities ["A", "B"] 1) ≠ 1 := by decide

/-- Witness for C1: the amended statement instantiated at 2 cities, 7 days. -/
theorem C1_witness :
    ((["A", "B"] : List String) ≠ [] ∧ (["A", "B"] : List String).Nodup) ∧
      daySplitSpec ["A", "B"] 7 :=
  ⟨⟨by decide, by decide⟩, C1_day_split_spec ["A", "B"] 7 (by decide) (by decide)⟩

/-- C6: `build_itinerary` (`itinerary.py` lines 211-253) passes the parsed
day count straight into `split_days_among_cities` with no validation, so a
request for 0 days (e.g. the query "0 days in Dubai", whose regex parse
yields `days = 0`) silently produces the degenerate allocation
`{"Dubai": 1}` — one day for a zero-day request, no descriptive boundary
error (and a request with no day count at all reaches the same call with
`days = None`, raising an undescriptive `TypeError` inside the allocator
instead of a boundary error). -/
theorem C6_silent_degenerate_split :
    split_days_among_cities ["Dubai"] 0 = [("Dubai", 1)] ∧
      valSum (split_days_among_cities ["Dubai"] 0) ≠ 0 := by decide

/-! ## Slot-based attraction picking: `itinerary.py`,
`pick_time_based_attraction` (lines 184-195) and the per-city day loop of
`build_itinerary` (lines 262-316)

Catalog rows are modelled with the fields the code reads.  The pandas
frame filter `Category.str.contains("|".join(categories), case=False)` is
an alternation of plain keywords, i.e. "some keyword is a case-insensitive
substring of the Category cell"; the `~Name.isin(used)` filter excludes
already-used names; `iloc[0]` is the head of the filtered frame.  The
`used_attractions` Python set is modelled as a list queried by
membership. -/

/-- An attraction catalog row (columns read by the code). -/
structure AttractionRow where
  name : String
  category : String
  description : String
deriving Repr, DecidableEq, Inhabited

/-- A hotel catalog row after the `rating_map` conversion (a missing or
unmapped `HotelRating` becomes pandas `NaN`, modelled as `none`). -/
structure HotelRow where
  hotelName : String
  hotelRating : Option Int
deriving Repr, DecidableEq, Inhabited

/-- A restaurant catalog row (cells kept as display strings; the cost cell
is already the result of `pd.to_numeric(..., errors="coerce")` rendered
back, with `NaN` written `"nan"` for `clean_value` to catch). -/
structure RestaurantRow where
  restaurantName : String
  cuisines : String
  aggregateRating : String
  votes : String
  costForTwo : String
deriving Repr, DecidableEq, Inhabited

/-- Python `str.lower()` (character-wise, which is exact for the ASCII
catalog keywords and phrases at issue). -/
def pyLower (s : String) : String := String.mk (s.data.map Char.toLower)

/-- Python `str.strip()`: drop leading and trailing whitespace. -/
def pyStrip (s : String) : String :=
  String.mk (((s.data.dropWhile Char.isWhitespace).reverse.dropWhile
    Char.isWhitespace).reverse)

/-- Substring containment on character lists, by direct recursion
(equivalent to `List.IsInfix`). -/
def listInfixOf (needle : List Char) : List Char → Bool
  | [] => needle.isEmpty
  | c :: rest => needle.isPrefixOf (c :: rest) || listInfixOf needle rest

/-- Case-insensitive substring test: Python `needle in hay` after both are
lowercased (pandas `str.contains(..., case=False)` on a plain keyword). -/
def containsCI (hay needle : String) : Bool :=
  listInfixOf (pyLower needle).data (pyLower hay).data

/-- `time_based_map` (`itinerary.py` lines 60-64). -/
def time_based_map (slot : String) : List String :=
  if slot = "Morning" then
    ["Museum", "Heritage", "Cultural", "Religious", "Theme Park", "Nature", "Zoo"]
  else if slot = "Afternoon" then
    ["Shopping", "Mall", "Souq", "Market", "Aquarium", "Art", "Exhibition"]
  else if slot = "Evening" then
    ["Desert", "Safari", "Adventure", "Nightlife", "Show", "Observation",
      "Fountain", "Water Park"]
  else []

/-- `pick_time_based_attraction` (lines 184-195): first unused row whose
category matches a slot keyword, else first unused row, else `None`. -/
def pick_time_based_attraction (city_attractions : List AttractionRow)
    (used : List String) (slot : String) : Option AttractionRow :=
  match (city_attractions.filter
      (fun a => (time_based_map slot).any (fun kw => containsCI a.category kw))).filter
      (fun a => !used.contains a.name) with
  | c :: _ => some c
  | [] =>
      match city_attractions.filter (fun a => !used.contains a.name) with
      | u :: _ => some u
      | [] => none

/-- One pick per slot over a list of slots, threading the `used` set:
each successful pick's name is added to `used` before the next pick
(`used_attractions.add(...)` at lines 268/271/274).  The day loop body is
this function at `["Morning", "Afternoon", "Evening"]`.  Returns the
assigned names in slot order together with the final `used` set. -/
def slotSequence (pool : List AttractionRow) :
    List String → List String → List String × List String
  | [], used => ([], used)
  | slot :: rest, used =>
      match pick_time_based_attraction pool used slot with
      | some a =>
          let r := slotSequence pool rest (a.name :: used)
          (a.name :: r.1, r.2)
      | none => slotSequence pool rest used

/-- The three picks of one day of the per-city loop (lines 266-274). -/
def dayPicks (pool : List AttractionRow) (used : List String) :
    List String × List String :=
  slotSequence pool ["Morning", "Afternoon", "Evening"] used

/-- Names assigned to slots over `days` consecutive days of one city
(lines 265-274), in assignment order. -/
def cityPickedNames (pool : List AttractionRow) (used : List String) :
    Nat → List String
  | 0 => []
  | days + 1 =>
      let r := dayPicks pool used
      r.1 ++ cityPickedNames pool r.2 (days)

/-! ### No-reuse lemmas (C8) -/

theorem pick_not_used (pool : List AttractionRow) (used : List String)
    (slot : String) (a : AttractionRow)
    (h : pick_time_based_attraction pool used slot = some a) :
    a.name ∉ used := by
  unfold pick_time_based_attraction at h
  split at h
  · rename_i c rest heq
    have hc : c ∈ (pool.filter
        (fun a => (time_based_map slot).any (fun kw => containsCI a.category kw))).filter
        (fun a => !used.contains a.name) := by
      rw [heq]; simp
    have := (List.mem_filter.mp hc).2
    have ha : a = c := by injection h with h; exact h.symm
    rw [ha]
    simpa using this
  · split at h
    · rename_i u rest heq
      have hu : u ∈ pool.filter (fun a => !used.contains a.name) := by
        rw [heq]; simp
      have := (List.mem_filter.mp hu).2
      have ha : a = u := by injection h with h; exact h.symm
      rw [ha]
      simpa using this
    · exact absurd h (by simp)

theorem slotSequence_spec (pool : List AttractionRow) (slots : List String) :
    ∀ used, (slotSequence pool slots used).1.Nodup ∧
      (∀ x ∈ (slotSequence pool slots used).1, x ∉ used) ∧
      (slotSequence pool slots used).2 =
        (slotSequence pool slots used).1.reverse ++ used := by
  induction slots with
  | nil => intro used; simp [slotSequence]
  | cons slot rest ih =>
      intro used
      rcases hp : pick_time_based_attraction pool used slot with _ | a
      · simpa [slotSequence, hp] using ih used
      · have hnu := pick_not_used pool used slot a hp
        obtain ⟨hnd, hmem, hused⟩ := ih (a.name :: used)
        simp only [slotSequence, hp]
        refine ⟨?_, ?_, ?_⟩
        · exact List.nodup_cons.mpr ⟨fun hc => (hmem _ hc) (by simp), hnd⟩
        · intro x hx
          rcases List.mem_cons.mp hx with rfl | hx
          · exact hnu
          · exact fun hc => hmem x hx (by simp [hc])
        · rw [hused]
          simp

theorem cityPickedNames_spec (pool : List AttractionRow) (days : Nat) :
    ∀ used, (cityPickedNames pool used days).Nodup ∧
      ∀ x ∈ cityPickedNames pool used days, x ∉ used := by
  induction days with
  | zero => intro used; simp [cityPickedNames]
  | succ d ih =>
      intro used
      obtain ⟨hnd1, hmem1, hused1⟩ := slotSequence_spec pool
        ["Morning", "Afternoon", "Evening"] used
      obtain ⟨hnd2, hmem2⟩ := ih (dayPicks pool used).2
      constructor
      · rw [cityPickedNames]
        refine List.Nodup.append hnd1 hnd2 ?_
        intro x hx1 hx2
        refine hmem2 x hx2 ?_
        rw [show (dayPicks pool used).2 =
            (slotSequence pool ["Morning", "Afternoon", "Evening"] used).2 from rfl,
          hused1]
        exact List.mem_append.mpr (Or.inl (List.mem_reverse.mpr hx1))
      · intro x hx hc
        rcases List.mem_append.mp hx with hx | hx
        · exact hmem1 x hx hc
        · refine hmem2 x hx ?_
          rw [show (dayPicks pool used).2 =
              (slotSequence pool ["Morning", "Afternoon", "Evening"] used).2 from rfl,
            hused1]
          exact List.mem_append.mpr (Or.inr hc)

/-- C8: within a single city's allocation (which starts with
`used_attractions = set()` at line 263), every pick excludes already-used
names and every picked name is recorded immediately, so the names assigned
to morning/afternoon/evening slots across that city's days are pairwise
distinct — for every catalog pool ordering and every day count.  (Days for
which the pool is exhausted assign nothing and are not in this list.) -/
theorem C8_no_attraction_reused (pool : List AttractionRow) (days : Nat) :
    (cityPickedNames pool [] days).Nodup :=
  (cityPickedNames_spec pool days []).1

/-! ## Day-record construction: `build_itinerary` per-city loop
(`itinerary.py` lines 262-316)

The loop builds, for local day index `i` of a city at position `idx` in the
request, the four display strings of an itinerary day.  The morning text is
built with `morning["Name"]` / `morning["Category"]` / `morning["Description"]`
in both the `idx == 0, i == 0` branch (line 284) and the `i > 0` branch
(line 288) *without a `None` check*, unlike the afternoon, evening, dinner
and hotel texts, which all degrade to explicit sentinels.  Subscripting
`None` raises `TypeError` in Python; it is modelled as `Except.error`.
(The `Date` field of the record, computed from the start date and the
global day counter alone, is independent of the catalog and omitted here.)
The pre-loop `.sample(frac=1)` shuffle only permutes the pools, so the
pools are taken as inputs in an arbitrary order. -/

/-- `clean_value` (lines 37-40); pandas `NaN` arrives as the string
`"nan"`. -/
def clean_value (val : String) (dflt : String := "Not Available") : String :=
  if pyLower (pyStrip val) = "nan" ∨ pyLower (pyStrip val) = "none" ∨
      pyLower (pyStrip val) = ""
  then dflt else val

/-- `format_rating` (lines 42-45). -/
def format_rating (rating : Option Int) : String :=
  match rating with
  | none => "Not Rated"
  | some r => s!"{r}-Star"

/-- One itinerary day as stored at lines 309-315 (minus the catalog-independent
`Date` field). -/
structure DayRecord where
  morning : String
  afternoon : String
  evening : String
  hotel : String
deriving Repr, DecidableEq, Inhabited

/-- The morning/afternoon/evening attraction text
`f"{row['Name']} ({row['Category']}) – {row['Description']}"`. -/
def attractionText (a : AttractionRow) : String :=
  s!"{a.name} ({a.category}) – {a.description}"

/-- The hotel line of a first day in a city (lines 282/286). -/
def hotelFirstDayText (hotel : Option HotelRow) : String :=
  match hotel with
  | none => "No hotels available"
  | some h =>
      let hn := clean_value h.hotelName
      let hr := format_rating h.hotelRating
      s!"{hn} ⭐ {hr}"

/-- The dinner line (line 293). -/
def dinnerText (restaurant : Option RestaurantRow) : String :=
  match restaurant with
  | none => "No restaurants available"
  | some r =>
      let rn := clean_value r.restaurantName
      let rc := clean_value r.cuisines
      let rr := clean_value r.aggregateRating "Not Rated"
      let rv := clean_value r.votes "0"
      let rco := clean_value r.costForTwo "N/A"
      s!"{rn} 🍴 {rc} | ⭐ {rr} ({rv} reviews) | 💰 {rco} AED for 2 people"

/-- The body of one iteration of the day loop (lines 265-316) for the city at
request position `idx`, local day `i`: returns the day record plus the
updated `used` set and `current_hotel`, or the Python exception the source
raises.  `TypeError` is raised exactly where the source subscripts the
`morning` pick without a `None` check. -/
def buildDay (city : String) (idx : Nat) (attrs : List AttractionRow)
    (hts : List HotelRow) (rests : List RestaurantRow) (used : List String)
    (currentHotel : Option HotelRow) (i : Nat) :
    Except String (DayRecord × List String × Option HotelRow) :=
  let morning := pick_time_based_attraction attrs used "Morning"
  let used1 := match morning with | some a => a.name :: used | none => used
  let afternoon := pick_time_based_attraction attrs used1 "Afternoon"
  let used2 := match afternoon with | some a => a.name :: used1 | none => used1
  let evening_pick := pick_time_based_attraction attrs used2 "Evening"
  let used3 := match evening_pick with | some a => a.name :: used2 | none => used2
  let restaurant := if rests.isEmpty then none
    else some (rests.getD (i % rests.length) default)
  let hotel := if hts.isEmpty then none
    else some (hts.getD (i % hts.length) default)
  let afternoon_text := match afternoon with
    | none => "No afternoon activity"
    | some a => attractionText a
  let dinner_text := dinnerText restaurant
  let evening_text := match evening_pick with
    | some e =>
        let ea := attractionText e
        s!"{ea}\nDinner: {dinner_text}"
    | none => s!"Dinner: {dinner_text}"
  if i = 0 ∧ idx > 0 then
    let morning_text := s!"🚗 Travel to **{city}**, check into hotel."
    Except.ok (⟨morning_text, afternoon_text, evening_text,
      hotelFirstDayText hotel⟩, used3, hotel)
  else if i = 0 ∧ idx = 0 then
    match morning with
    | none => Except.error "TypeError: 'NoneType' object is not subscriptable"
    | some m =>
        let mt := attractionText m
        let morning_text := s!"Check into hotel then visit {mt}"
        Except.ok (⟨morning_text, afternoon_text, evening_text,
          hotelFirstDayText hotel⟩, used3, hotel)
  else
    match morning with
    | none => Except.error "TypeError: 'NoneType' object is not subscriptable"
    | some m =>
        let morning_text := attractionText m
        let hotel_text := if currentHotel.isSome then "Same hotel as previous day"
          else "No hotels available"
        Except.ok (⟨morning_text, afternoon_text, evening_text, hotel_text⟩,
          used3, currentHotel)

/-- The day loop `for i in range(city_day_counts[city])` (line 265) for one
city, from local day `i` with `remaining` iterations left. -/
def buildCityDaysAux (city : String) (idx : Nat) (attrs : List AttractionRow)
    (hts : List HotelRow) (rests : List RestaurantRow) :
    List String → Option HotelRow → Nat → Nat → Except String (List DayRecord)
  | _, _, _, 0 => Except.ok []
  | used, currentHotel, i, remaining + 1 =>
      match buildDay city idx attrs hts rests used currentHotel i with
      | Except.error e => Except.error e
      | Except.ok (rec, used', hotel') =>
          match buildCityDaysAux city idx attrs hts rests used' hotel'
              (i + 1) remaining with
          | Except.error e => Except.error e
          | Except.ok rest => Except.ok (rec :: rest)

/-- All itinerary days of one city (entering with `used_attractions = set()`
and `current_hotel = None`, lines 262-263). -/
def buildCityDays (city : String) (idx : Nat) (attrs : List AttractionRow)
    (hts : List HotelRow) (rests : List RestaurantRow) (dayCount : Nat) :
    Except String (List DayRecord) :=
  buildCityDaysAux city idx attrs hts rests [] none 0 dayCount

/-- C5 is false of the code: for a first city whose catalog is completely
empty (no attractions, hotels or restaurants) and any positive day
allotment, the very first day raises `TypeError` when the source formats
`morning["Name"]` from a `None` pick (line 284), instead of degrading the
morning slot to an "unavailable" sentinel the way the afternoon, evening,
dinner and hotel descriptors do. -/
theorem C5_empty_catalog_raises :
    buildCityDays "Dubai" 0 [] [] [] 1 =
      Except.error "TypeError: 'NoneType' object is not subscriptable" := by
  rfl

/-! ## Temporal Phrase Resolver: `itinerary.py`, `parse_date_string`
(lines 124-168)

Dates are CPython `datetime` values modelled by their proleptic Gregorian
ordinal (`datetime.toordinal()`, Monday-ordinal-1 calibration: ordinal 1 is
0001-01-01, a Monday, so `weekday() = (ordinal - 1) % 7`).  CPython bounds:
ordinals live in `[1, 3652059]` and `timedelta(days=n)` requires
`|n| ≤ 999999999`; exceeding either raises `OverflowError`.  The final
`strftime('%Y-%m-%d')` rendering of the resolved date is omitted — the
theorems speak about the date value itself or the no-date result.

The two fallback parsers (`parsedatetime.Calendar().parse`, which reports
failure through a status flag instead of raising, and
`dateutil.parser.parse`, whose exceptions the source catches) and the
`relativedelta(months=1)` shift are third-party collaborators and enter the
model as function parameters. -/

def minOrdinal : Int := 1
def maxOrdinal : Int := 3652059
def maxTimedeltaDays : Int := 999999999

/-- `today + timedelta(days=n)` with CPython's overflow behaviour. -/
def timedeltaAdd (d n : Int) : Except String Int :=
  if n > maxTimedeltaDays ∨ n < -maxTimedeltaDays then Except.error "OverflowError"
  else if d + n < minOrdinal ∨ d + n > maxOrdinal then Except.error "OverflowError"
  else Except.ok (d + n)

/-- `datetime.weekday()`: Monday = 0. -/
def pyWeekday (d : Int) : Int := (d - 1) % 7

/-- Python's `needle in hay` on strings. -/
def pyContains (hay needle : String) : Bool :=
  listInfixOf needle.data hay.data

/-- `natural_date.lower().strip()` (line 128). -/
def normPhrase (s : String) : String := pyStrip (pyLower s)

/-- `list(calendar.day_name)` with each entry already lowered, as compared
at line 140 (`wd.lower() in natural_date_lower`). -/
def weekday_names : List String :=
  ["monday", "tuesday", "wednesday", "thursday", "friday", "saturday", "sunday"]

/-- The `for i, wd in enumerate(weekdays)` scan (lines 139-140): the first
weekday (in Monday..Sunday order) whose name occurs in the phrase. -/
def findWeekday (s : String) : List String → Nat → Option Nat
  | [], _ => none
  | wd :: rest, i => if pyContains s wd then some i else findWeekday s rest (i + 1)

def firstWeekdayIn (s : String) : Option Nat := findWeekday s weekday_names 0

/-- `days_ahead` for weekday index `i` (lines 142-144): days until the next
occurrence of that weekday, with a same-day hit pushed a full week. -/
def weekdayDelta (today : Int) (i : Nat) : Int :=
  if ((i : Int) - pyWeekday today + 7) % 7 = 0 then 7
  else ((i : Int) - pyWeekday today + 7) % 7

/-- `int(...)` on a digit run. -/
def natOfDigits (ds : List Char) : Nat :=
  ds.foldl (fun acc c => 10 * acc + (c.toNat - 48)) 0

/-- `re.search(r'after (\d+) days?', s)` at one candidate position: literal
`"after "`, a maximal non-empty digit run, then `" day"` (the trailing `s?`
is optional and cannot affect whether the pattern matches). -/
def matchAfterAt (cs : List Char) : Option Nat :=
  if "after ".data.isPrefixOf cs then
    let rest := cs.drop 6
    let ds := rest.takeWhile Char.isDigit
    if ds.isEmpty then none
    else if " day".data.isPrefixOf (rest.dropWhile Char.isDigit) then
      some (natOfDigits ds)
    else none
  else none

/-- `re.search`: leftmost match wins. -/
def afterDaysSearch : List Char → Option Nat
  | [] => none
  | c :: cs =>
      match matchAfterAt (c :: cs) with
      | some n => some n
      | none => afterDaysSearch cs

/-- `parse_date_string` (`itinerary.py` lines 124-168).  `pdtParse` is the
`parsedatetime` fallback (`none` models `parse_status == 0`), `duParse` the
`dateutil` fallback (`Except.error` models it raising — the source wraps
only this call in `try/except` and returns `None` on failure),
`relMonthAdd` the `relativedelta(months=1)` shift.  The result is the
resolved date's ordinal, `Except.ok none` for the no-date result, or the
Python exception text. -/
def parse_date_string
    (pdtParse : String → Int → Option Int)
    (duParse : String → Int → Except String Int)
    (relMonthAdd : Int → Except String Int)
    (natural_date : Option String) (base_date : Int) :
    Except String (Option Int) :=
  match natural_date with
  | none => Except.ok none
  | some nd =>
      if nd = "" then Except.ok none
      else
        if pyContains (normPhrase nd) "day after tomorrow" then
          (timedeltaAdd base_date 2).map some
        else if pyContains (normPhrase nd) "tomorrow" then
          (timedeltaAdd base_date 1).map some
        else
          match firstWeekdayIn (normPhrase nd) with
          | some i => (timedeltaAdd base_date (weekdayDelta base_date i)).map some
          | none =>
              if normPhrase nd = "next month" then
                (relMonthAdd base_date).map some
              else
                match afterDaysSearch (normPhrase nd).data with
                | some n => (timedeltaAdd base_date (n : Int)).map some
                | none =>
                    match pdtParse nd base_date with
                    | some d => Except.ok (some d)
                    | none =>
                        match duParse nd base_date with
                        | Except.ok d => Except.ok (some d)
                        | Except.error _ => Except.ok none

/-- Arbitrary concrete instantiations of the three external collaborators,
used to evaluate the resolver on concrete phrases: a parsedatetime that
recognizes nothing, a dateutil that raises, an identity month shift. -/
def pdtNone : String → Int → Option Int := fun _ _ => none

def duFail : String → Int → Except String Int := fun _ _ => Except.error "ParserError"

def relMonthStub : Int → Except String Int := fun d => Except.ok d

/-! ### Resolver claim theorems (C7, C9) -/

/-- C7 counterexample: the resolver is *not* exception-free for every input
string.  The phrase "after 999999999999 days" is matched by the
`after (\d+) days?` rule and `timedelta(days=999999999999)` overflows
CPython's documented `timedelta` limit, raising `OverflowError` before any
`try/except` — so the source raises instead of degrading to no-date. -/
theorem C7_counterexample :
    parse_date_string pdtNone duFail relMonthStub
      (some "after 999999999999 days") 739170 = Except.error "OverflowError" := by
  rfl

/-- C7 (amended): the no-raise guarantee holds on the unparseable side.  If
no cascade rule matches the phrase, the `parsedatetime` fallback reports
failure, and the `dateutil` fallback raises (the source catches exactly
this), the resolver returns the no-date result — for every phrase, every
base date and all collaborator behaviours.  Exceptions are possible only
when a *matched* relative-date rule's offset leaves the representable
date/timedelta range. -/
theorem C7_unparseable_no_date
    (pdtParse : String → Int → Option Int)
    (duParse : String → Int → Except String Int)
    (relMonthAdd : Int → Except String Int)
    (nd : String) (base : Int)
    (hne : nd ≠ "")
    (h1 : pyContains (normPhrase nd) "day after tomorrow" = false)
    (h2 : pyContains (normPhrase nd) "tomorrow" = false)
    (h3 : firstWeekdayIn (normPhrase nd) = none)
    (h4 : normPhrase nd ≠ "next month")
    (h5 : afterDaysSearch (normPhrase nd).data = none)
    (h6 : pdtParse nd base = none)
    (h7 : ∃ e, duParse nd base = Except.error e) :
    parse_date_string pdtParse duParse relMonthAdd (some nd) base =
      Except.ok none := by
  obtain ⟨e, h7⟩ := h7
  simp only [parse_date_string]
  rw [if_neg hne, if_neg (by rw [h1]; exact Bool.false_ne_true),
    if_neg (by rw [h2]; exact Bool.false_ne_true), h3, if_neg h4, h5, h6, h7]

/-- Witness for C7 at the spec's own scenario: "banana" matches no rule and
no fallback, and resolves to the no-date result without an error. -/
theorem C7_witness :
    (("banana" : String) ≠ "" ∧
      pyContains (normPhrase "banana") "tomorrow" = false ∧
      firstWeekdayIn (normPhrase "banana") = none ∧
      afterDaysSearch (normPhrase "banana").data = none) ∧
    parse_date_string pdtNone duFail relMonthStub (some "banana") 739170 =
      Except.ok none :=
  ⟨⟨by decide, by rfl, by rfl, by rfl⟩,
    C7_unparseable_no_date pdtNone duFail relMonthStub "banana" 739170
      (by decide) (by rfl) (by rfl) (by rfl) (by decide) (by rfl) rfl
      ⟨"ParserError", rfl⟩⟩

theorem firstWeekdayIn_lt (s : String) (i : Nat)
    (h : firstWeekdayIn s = some i) : i < 7 := by
  unfold firstWeekdayIn weekday_names at h
  simp only [findWeekday] at h
  split_ifs at h <;> simp_all <;> omega

/-- `days_ahead` is always pushed into `1..7`, and landing `days_ahead`
days after `today` hits weekday `i` exactly. -/
theorem weekdayDelta_spec (today : Int) (i : Nat) (hi : i < 7) :
    1 ≤ weekdayDelta today i ∧ weekdayDelta today i ≤ 7 ∧
      pyWeekday (today + weekdayDelta today i) = (i : Int) := by
  unfold weekdayDelta pyWeekday
  omega

/-- C9: whenever the day-after-tomorrow and tomorrow rules do not match, a
phrase containing any English weekday name anywhere as a substring resolves
through the weekday rule: with `i` the index of the *first matching name in
Monday-through-Sunday order* (not the weekday mentioned first in the
phrase), the result is the next date strictly after the base date (at most
7 days later) falling on weekday `i`. -/
theorem C9_weekday_rule
    (pdtParse : String → Int → Option Int)
    (duParse : String → Int → Except String Int)
    (relMonthAdd : Int → Except String Int)
    (nd : String) (base : Int) (i : Nat)
    (hne : nd ≠ "")
    (h1 : pyContains (normPhrase nd) "day after tomorrow" = false)
    (h2 : pyContains (normPhrase nd) "tomorrow" = false)
    (hwd : firstWeekdayIn (normPhrase nd) = some i)
    (hb1 : minOrdinal ≤ base) (hb2 : base + 7 ≤ maxOrdinal) :
    ∃ d, parse_date_string pdtParse duParse relMonthAdd (some nd) base =
        Except.ok (some d) ∧
      pyWeekday d = (i : Int) ∧ base < d ∧ d ≤ base + 7 := by
  have hi : i < 7 := firstWeekdayIn_lt _ _ hwd
  obtain ⟨hd1, hd2, hd3⟩ := weekdayDelta_spec base i hi
  refine ⟨base + weekdayDelta base i, ?_, hd3, by omega, by omega⟩
  simp only [parse_date_string]
  rw [if_neg hne, if_neg (by rw [h1]; exact Bool.false_ne_true),
    if_neg (by rw [h2]; exact Bool.false_ne_true), hwd]
  unfold timedeltaAdd minOrdinal maxOrdinal maxTimedeltaDays at *
  have hnot1 : ¬(weekdayDelta base i > 999999999 ∨
      weekdayDelta base i < -999999999) := by omega
  have hnot2 : ¬(base + weekdayDelta base i < 1 ∨
      base + weekdayDelta base i > 3652059) := by omega
  simp only [if_neg hnot1, if_neg hnot2, Except.map]

/-- Witness for C9: the phrase "sunday or friday" mentions Sunday first,
but resolves to the next Friday (weekday index 4), because the rule scans
weekday names in Monday-through-Sunday order. -/
theorem C9_witness :
    (pyContains (normPhrase "sunday or friday") "tomorrow" = false ∧
      firstWeekdayIn (normPhrase "sunday or friday") = some 4) ∧
    ∃ d, parse_date_string pdtNone duFail relMonthStub
        (some "sunday or friday") 739170 = Except.ok (some d) ∧
      pyWeekday d = ((4 : Nat) : Int) ∧ 739170 < d ∧ d ≤ 739170 + 7 :=
  ⟨⟨by rfl, by rfl⟩,
    C9_weekday_rule pdtNone duFail relMonthStub "sunday or friday" 739170 4
      (by decide) (by rfl) (by rfl) (by rfl) (by decide) (by decide)⟩

/-! ## Flight offer ranking & summarization: `flight_utils.py`,
`summarize_skyexperts` (lines 237-393)

`RawOffer` models the third-party offer record with the fields the code
reads, well-typed per the spec's data model (numeric `total_price` and
`totaltime`; the claims are about structure and ranking, not about
malformed JSON cells).  Prices are `ℚ`: the source formats the float price
into a 2-decimal string `f"{sign}{price:.2f}"` inside `parse_segment` and
strips/`float()`s it back for every ranking comparison; the model keeps
the numeric value, which is what every comparison is ordered by.

`parse_segment` wraps its body in `try/except` and returns `None` on any
exception; with well-typed fields the only reachable exception is the
`IndexError` from `f.get("Airlinelists", ["Unknown"])[0]` when the
`Airlinelists` key is present but empty (a missing key would default to
`["Unknown"]`, representable here as that one-element list), plus the
explicit empty-`flightlist` skip. -/

structure Leg where
  depIata : String
  depCity : String
  depDate : String
  depTime : String
  arrIata : String
  arrCity : String
  arrDate : String
  arrTime : String
  operatingAirlineName : Option String
deriving Repr, DecidableEq, Inhabited

structure LegGroup where
  flightlist : List Leg
  totaltime : Int
deriving Repr, DecidableEq, Inhabited

structure RawOffer where
  airlinelists : List String
  total_price : ℚ
  outboundInboundlist : List LegGroup
deriving Repr, DecidableEq, Inhabited

structure StopDetail where
  code : String
  city : String
  date : String
  time : String
deriving Repr, DecidableEq, Inhabited

/-- The canonical projection of one leg-group (the dict built at
`flight_utils.py` lines 299-314). The field `ret` of `OfferPair` below
stands for the source's `"return"` key (a Lean keyword). -/
structure NormalizedOffer where
  airline : String
  airline_name : String
  price : ℚ
  duration : String
  stops : Nat
  stops_detail : List StopDetail
  dep_code : String
  dep_city : String
  dep_date : String
  dep_time : String
  arr_code : String
  arr_city : String
  arr_date : String
  arr_time : String
deriving Repr, DecidableEq, Inhabited

structure OfferPair where
  outbound : NormalizedOffer
  ret : NormalizedOffer
deriving Repr, DecidableEq, Inhabited

/-- The slice of the API response the summarizer reads:
`api_data["data"]["Data"]` and `api_data["data"]["Currency_sign"]`. -/
structure ApiData where
  flights_data : List RawOffer
  currency_sign : String
deriving Repr, DecidableEq, Inhabited

/-- `divmod(duration_minutes, 60)` into `f"{hours}h {mins}m"`
(lines 263-267; Python floor-divmod = `Int` `/`/`%`). -/
def formatDuration (duration_minutes : Int) : String :=
  let hours := duration_minutes / 60
  let mins := duration_minutes % 60
  s!"{hours}h {mins}m"

/-- `parse_segment` (lines 251-317). -/
def parse_segment (currency_sign : String) (f : RawOffer) (segment_index : Nat) :
    Option NormalizedOffer :=
  match f.airlinelists with
  | [] => none
  | airline_code :: _ =>
      let segments := if segment_index < f.outboundInboundlist.length
        then (f.outboundInboundlist.getD segment_index default).flightlist
        else []
      match segments with
      | [] => none
      | first_seg :: restSegs =>
          let duration_minutes :=
            (f.outboundInboundlist.getD segment_index default).totaltime
          let last_seg := (first_seg :: restSegs).getLast (by simp)
          let arr_city := if last_seg.arrIata = "XNB"
            then last_seg.arrCity ++ " (via Abu Dhabi Bus Transfer)"
            else last_seg.arrCity
          let airline_name := first_seg.operatingAirlineName.getD airline_code
          let stops_detail := (first_seg :: restSegs).dropLast.map (fun seg =>
            let stop_city := if seg.arrIata = "XNB"
              then seg.arrCity ++ " (Bus Transfer)" else seg.arrCity
            StopDetail.mk seg.arrIata stop_city seg.arrDate seg.arrTime)
          some {
            airline := airline_code
            airline_name := airline_name
            price := f.total_price
            duration := formatDuration duration_minutes
            stops := (first_seg :: restSegs).length - 1
            stops_detail := stops_detail
            dep_code := first_seg.depIata
            dep_city := first_seg.depCity
            dep_date := first_seg.depDate
            dep_time := first_seg.depTime
            arr_code := last_seg.arrIata
            arr_city := arr_city
            arr_date := last_seg.arrDate
            arr_time := last_seg.arrTime }

/-- Whitespace strip on a character list (Python `str.strip()` as used by
`int(h.strip())`). -/
def stripChars (cs : List Char) : List Char :=
  ((cs.dropWhile Char.isWhitespace).reverse.dropWhile Char.isWhitespace).reverse

/-- Python `int(str)` on an already-stripped token: optional sign, then a
non-empty digit run (digit-group underscores are irrelevant here). -/
def digitRunToInt? (ds : List Char) : Option Int :=
  if ds.isEmpty then none
  else if ds.all Char.isDigit then some (natOfDigits ds) else none

def pyInt? (cs : List Char) : Option Int :=
  match cs with
  | '-' :: ds => (digitRunToInt? ds).map (fun n => -n)
  | '+' :: ds => digitRunToInt? ds
  | ds => digitRunToInt? ds

/-- Python `s.split("h")` for the single-character separator. -/
def splitOnChar (c : Char) : List Char → List (List Char)
  | [] => [[]]
  | x :: rest =>
      let r := splitOnChar c rest
      if x = c then [] :: r
      else
        match r with
        | [] => [[x]]
        | y :: ys => (x :: y) :: ys

/-- The parsing part of `duration_to_minutes` (lines 331-335 and again
370-374): `h, m = dur.replace("m", "").split("h")` then
`int(h.strip()) * 60 + int(m.strip())`; `none` when the 2-tuple unpacking
or either `int()` raises. -/
def hmParse (dur : String) : Option Int :=
  match splitOnChar 'h' (dur.data.filter (fun c => !(c == 'm'))) with
  | [h, m] =>
      match pyInt? (stripChars h), pyInt? (stripChars m) with
      | some hv, some mv => some (hv * 60 + mv)
      | _, _ => none
  | _ => none

/-- `duration_to_minutes` (defined verbatim twice in the source, once per
summary mode): a failed parse yields the fixed finite sentinel 99999. -/
def duration_to_minutes (dur : String) : Int :=
  (hmParse dur).getD 99999

/-- Python `min(x :: xs, key)`: the first element attaining the minimal
key (ties keep the earlier element). -/
def pyMin1 {α β : Type} [LinearOrder β] (key : α → β) (x : α) (xs : List α) : α :=
  xs.foldl (fun acc y => if key y < key acc then y else acc) x

/-- Python `max(x :: xs, key)`. -/
def pyMax1 {α β : Type} [LinearOrder β] (key : α → β) (x : α) (xs : List α) : α :=
  xs.foldl (fun acc y => if key acc < key y then y else acc) x

/-- Stable insertion for `sortedBy`. -/
def insertSortedBy {α β : Type} [LinearOrder β] (key : α → β) (x : α) :
    List α → List α
  | [] => [x]
  | y :: ys => if key y < key x then y :: insertSortedBy key x ys
      else x :: y :: ys

/-- Python `sorted(l, key=...)`: a stable ascending sort.  Stability makes
the result of `sorted` unique, so any stable implementation (here:
insertion sort) is extensionally Python's. -/
def sortedBy {α β : Type} [LinearOrder β] (key : α → β) : List α → List α
  | [] => []
  | x :: xs => insertSortedBy key x (sortedBy key xs)

/-- The round-trip pair construction (lines 320-327). -/
def buildPairs (sign : String) (offers : List RawOffer) : List OfferPair :=
  offers.filterMap (fun f =>
    if f.outboundInboundlist.isEmpty then none
    else
      match parse_segment sign f 0,
        (if 1 < f.outboundInboundlist.length then parse_segment sign f 1
         else none) with
      | some ob, some rt => some (OfferPair.mk ob rt)
      | _, _ => none)

/-- The one-way normalization
`[parse_segment(f, 0) for f in flights_data if f.get("OutboundInboundlist")]`
with `None` results dropped (lines 361-362). -/
def outboundOnly (sign : String) (offers : List RawOffer) : List NormalizedOffer :=
  offers.filterMap (fun f =>
    if f.outboundInboundlist.isEmpty then none else parse_segment sign f 0)

/-- The summary dict: the empty summary (`all_flights=[]`, `None`s), the
round-trip shape or the one-way shape. -/
inductive OfferSummary where
  | emptySummary : OfferSummary
  | roundtrip (all_flights : List OfferPair) (cheapest fastest : OfferPair)
      (direct : List OfferPair) (min_price max_price : ℚ) : OfferSummary
  | oneway (all_flights : List NormalizedOffer)
      (cheapest fastest : NormalizedOffer) (direct : List NormalizedOffer)
      (min_price max_price : ℚ) : OfferSummary
deriving Repr, DecidableEq

/-- The key `duration_to_minutes(out) + duration_to_minutes(ret)`. -/
def pairDurationKey (x : OfferPair) : Int :=
  duration_to_minutes x.outbound.duration + duration_to_minutes x.ret.duration

/-- `summarize_skyexperts` (lines 237-393).  In round-trip mode `cheapest`,
`fastest` and `direct` range over the *full* pair list and `all_flights` is
the price-ranked top 5; in one-way mode the top 5 is taken first and
`cheapest`/`fastest`/`direct`/`price_summary` all range over that top-5
subset only. -/
def summarize_skyexperts (api : ApiData) : OfferSummary :=
  if api.flights_data.isEmpty then OfferSummary.emptySummary
  else
    match buildPairs api.currency_sign api.flights_data with
    | p :: ps =>
        let cheapest := pyMin1 (fun x : OfferPair => x.outbound.price) p ps
        let fastest := pyMin1 pairDurationKey p ps
        let direct := ((p :: ps).filter
          (fun x => x.outbound.stops == 0 && x.ret.stops == 0)).take 3
        let top5 := (sortedBy (fun x : OfferPair => x.outbound.price) (p :: ps)).take 5
        OfferSummary.roundtrip top5 cheapest fastest direct
          (pyMin1 id p.outbound.price (ps.map (fun x => x.outbound.price)))
          (pyMax1 id p.outbound.price (ps.map (fun x => x.outbound.price)))
    | [] =>
        match outboundOnly api.currency_sign api.flights_data with
        | [] => OfferSummary.emptySummary
        | o :: os =>
            match (sortedBy (fun x : NormalizedOffer => x.price) (o :: os)).take 5 with
            | [] => OfferSummary.emptySummary
            | t :: ts =>
                let cheapest := pyMin1 (fun x : NormalizedOffer => x.price) t ts
                let fastest := pyMin1
                  (fun x : NormalizedOffer => duration_to_minutes x.duration) t ts
                let direct := ((t :: ts).filter (fun x => x.stops == 0)).take 3
                OfferSummary.oneway (t :: ts) cheapest fastest direct
                  (pyMin1 id t.price (ts.map (fun x => x.price)))
                  (pyMax1 id t.price (ts.map (fun x => x.price)))

/-- Whether the summary was built in round-trip mode. -/
def OfferSummary.isRoundTrip : OfferSummary → Bool
  | OfferSummary.roundtrip _ _ _ _ _ _ => true
  | _ => false

/-- Outbound prices of the summary's direct list, in list order. -/
def OfferSummary.directOutboundPrices : OfferSummary → List ℚ
  | OfferSummary.emptySummary => []
  | OfferSummary.roundtrip _ _ _ d _ _ => d.map (fun p => p.outbound.price)
  | OfferSummary.oneway _ _ _ d _ _ => d.map (fun o => o.price)

/-- Outbound prices of the summary's ranked `all_flights` list. -/
def OfferSummary.rankedOutboundPrices : OfferSummary → List ℚ
  | OfferSummary.emptySummary => []
  | OfferSummary.roundtrip t _ _ _ _ _ => t.map (fun p => p.outbound.price)
  | OfferSummary.oneway t _ _ _ _ _ => t.map (fun o => o.price)

/-- The duration key of the summary's reported fastest entry. -/
def OfferSummary.fastestDurationKey : OfferSummary → Option Int
  | OfferSummary.emptySummary => none
  | OfferSummary.roundtrip _ _ fa _ _ _ => some (pairDurationKey fa)
  | OfferSummary.oneway _ _ fa _ _ _ => some (duration_to_minutes fa.duration)

/-! ### `min(..., key=...)` lemmas -/

theorem pyMin1_cons {α β : Type} [LinearOrder β] (key : α → β) (x y : α)
    (ys : List α) :
    pyMin1 key x (y :: ys) = pyMin1 key (if key y < key x then y else x) ys := rfl

theorem pyMin1_mem {α β : Type} [LinearOrder β] (key : α → β) (x : α)
    (xs : List α) : pyMin1 key x xs ∈ x :: xs := by
  induction xs generalizing x with
  | nil => simp [pyMin1]
  | cons y ys ih =>
      rw [pyMin1_cons]
      have h := ih (if key y < key x then y else x)
      rcases List.mem_cons.mp h with h | h
      · rw [h]
        by_cases hc : key y < key x <;> simp [hc]
      · simp [h]

theorem pyMin1_le {α β : Type} [LinearOrder β] (key : α → β) (x : α)
    (xs : List α) : ∀ y ∈ x :: xs, key (pyMin1 key x xs) ≤ key y := by
  induction xs generalizing x with
  | nil =>
      intro y hy
      rcases List.mem_cons.mp hy with rfl | h
      · exact le_refl _
      · simp at h
  | cons z zs ih =>
      intro y hy
      rw [pyMin1_cons]
      have hstep : key (pyMin1 key (if key z < key x then z else x) zs) ≤
          key (if key z < key x then z else x) :=
        ih _ _ (by simp)
      rcases List.mem_cons.mp hy with rfl | hy
      · refine le_trans hstep ?_
        by_cases hc : key z < key y <;> simp [hc]
        exact le_of_lt hc
      · rcases List.mem_cons.mp hy with rfl | hy
        · refine le_trans hstep ?_
          by_cases hc : key y < key x
          · rw [if_pos hc]
          · rw [if_neg hc]
            exact not_lt.mp hc
        · exact ih _ y (List.mem_cons_of_mem _ hy)

/-! ### Round-trip mode characterization (C2) -/

theorem parse_segment_isSome_iff (sign : String) (f : RawOffer) (i : Nat)
    (hwf : f.airlinelists ≠ []) :
    (parse_segment sign f i).isSome = true ↔
      (i < f.outboundInboundlist.length ∧
        (f.outboundInboundlist.getD i default).flightlist ≠ []) := by
  rcases hA : f.airlinelists with _ | ⟨a, rest⟩
  · exact absurd hA hwf
  · simp only [parse_segment, hA]
    by_cases hlen : i < f.outboundInboundlist.length
    · rw [if_pos hlen]
      rcases hfl : (f.outboundInboundlist.getD i default).flightlist with _ | ⟨s, ss⟩
      · simp [hlen, hfl]
      · simp [hlen, hfl]
    · rw [if_neg hlen]
      simp [hlen]

theorem buildPairs_fn_iff (sign : String) (f : RawOffer)
    (hwf : f.airlinelists ≠ []) :
    (if f.outboundInboundlist.isEmpty then none
      else
        match parse_segment sign f 0,
          (if 1 < f.outboundInboundlist.length then parse_segment sign f 1
           else none) with
        | some ob, some rt => some (OfferPair.mk ob rt)
        | _, _ => none) ≠ (none : Option OfferPair) ↔
      (2 ≤ f.outboundInboundlist.length ∧
        (f.outboundInboundlist.getD 0 default).flightlist ≠ [] ∧
        (f.outboundInboundlist.getD 1 default).flightlist ≠ []) := by
  by_cases hE : f.outboundInboundlist.isEmpty
  · have hlen0 : f.outboundInboundlist.length = 0 := by
      rw [List.isEmpty_iff] at hE
      simp [hE]
    simp [hE, hlen0]
  · rw [if_neg hE]
    have h0 := parse_segment_isSome_iff sign f 0 hwf
    have h1 := parse_segment_isSome_iff sign f 1 hwf
    by_cases hlen : 1 < f.outboundInboundlist.length
    · rw [if_pos hlen]
      rcases hp0 : parse_segment sign f 0 with _ | ob
      · rw [hp0] at h0
        simp only [Option.isSome_none] at h0
        constructor
        · intro h
          exact absurd rfl h
        · rintro ⟨hl, hg0, hg1⟩
          exact absurd (Bool.false_ne_true (h0.mpr ⟨by omega, hg0⟩)) (fun h => h)
      · rcases hp1 : parse_segment sign f 1 with _ | rt
        · rw [hp1] at h1
          simp only [Option.isSome_none] at h1
          constructor
          · intro h
            exact absurd rfl h
          · rintro ⟨hl, hg0, hg1⟩
            exact absurd (Bool.false_ne_true (h1.mpr ⟨by omega, hg1⟩)) (fun h => h)
        · rw [hp0] at h0
          rw [hp1] at h1
          simp only [Option.isSome_some, true_iff] at h0 h1
          constructor
          · intro _
            exact ⟨by omega, h0.2, h1.2⟩
          · intro _
            simp
    · rw [if_neg hlen]
      constructor
      · intro h
        rcases hp0 : parse_segment sign f 0 with _ | ob <;> simp [hp0] at h
      · rintro ⟨hl, _, _⟩
        omega

theorem buildPairs_ne_nil_iff (sign : String) (offers : List RawOffer)
    (hwf : ∀ f ∈ offers, f.airlinelists ≠ []) :
    buildPairs sign offers ≠ [] ↔
      ∃ f ∈ offers, 2 ≤ f.outboundInboundlist.length ∧
        (f.outboundInboundlist.getD 0 default).flightlist ≠ [] ∧
        (f.outboundInboundlist.getD 1 default).flightlist ≠ [] := by
  unfold buildPairs
  rw [ne_eq, List.filterMap_eq_nil]
  push_neg
  constructor
  · rintro ⟨f, hf, hne⟩
    exact ⟨f, hf, (buildPairs_fn_iff sign f (hwf f hf)).mp hne⟩
  · rintro ⟨f, hf, hcond⟩
    exact ⟨f, hf, (buildPairs_fn_iff sign f (hwf f hf)).mpr hcond⟩

/-- C2: the summary is built in round-trip mode iff at least one raw offer
has at least two leg-groups whose outbound and return groups each contain a
leg — a single global mode switch for the whole batch, never a per-offer
choice.  (Offers are assumed to carry a non-empty `Airlinelists`, per the
RawOffer data model; an offer with an explicitly empty airline list is
discarded by `parse_segment`'s `try/except` and could mask an otherwise
qualifying offer.) -/
theorem C2_roundtrip_mode_iff (api : ApiData)
    (hwf : ∀ f ∈ api.flights_data, f.airlinelists ≠ []) :
    (summarize_skyexperts api).isRoundTrip = true ↔
      ∃ f ∈ api.flights_data, 2 ≤ f.outboundInboundlist.length ∧
        (f.outboundInboundlist.getD 0 default).flightlist ≠ [] ∧
        (f.outboundInboundlist.getD 1 default).flightlist ≠ [] := by
  rw [← buildPairs_ne_nil_iff api.currency_sign api.flights_data hwf]
  unfold summarize_skyexperts
  by_cases hE : api.flights_data.isEmpty
  · rw [if_pos hE]
    have hnil : api.flights_data = [] := List.isEmpty_iff.mp hE
    simp [hnil, buildPairs, OfferSummary.isRoundTrip]
  · rw [if_neg hE]
    rcases hbp : buildPairs api.currency_sign api.flights_data with _ | ⟨p, ps⟩
    · constructor
      · intro h
        rcases hob : outboundOnly api.currency_sign api.flights_data with _ | ⟨o, os⟩
        · simp [hob, OfferSummary.isRoundTrip] at h
        · rcases htop : (sortedBy (fun x : NormalizedOffer => x.price)
              (o :: os)).take 5 with _ | ⟨t, ts⟩
          · simp [hob, htop, OfferSummary.isRoundTrip] at h
          · simp [hob, htop, OfferSummary.isRoundTrip] at h
      · intro h
        exact absurd rfl h
    · simp [OfferSummary.isRoundTrip]

/-! ### Fastest-offer scope (C3) and direct-list shape (C4) -/

/-- C3 (amended): the reported fastest entry minimizes
`duration_to_minutes` — but in one-way mode only over the top-5
cheapest-by-price subset (`all_flights`), not over the entire normalized
outbound set as claimed; in round-trip mode it does minimize the summed
outbound+return duration over the entire pair set. -/
theorem C3_fastest_scope (api : ApiData) :
    (∀ t ch fa di mn mx,
        summarize_skyexperts api = OfferSummary.oneway t ch fa di mn mx →
        fa ∈ t ∧ ∀ o ∈ t,
          duration_to_minutes fa.duration ≤ duration_to_minutes o.duration) ∧
    (∀ t ch fa di mn mx,
        summarize_skyexperts api = OfferSummary.roundtrip t ch fa di mn mx →
        fa ∈ buildPairs api.currency_sign api.flights_data ∧
        ∀ p ∈ buildPairs api.currency_sign api.flights_data,
          pairDurationKey fa ≤ pairDurationKey p) := by
  constructor
  · intro t ch fa di mn mx h
    unfold summarize_skyexperts at h
    split at h
    · exact absurd h (by simp)
    · split at h
      · exact absurd h (by simp)
      · split at h
        · exact absurd h (by simp)
        · split at h
          · exact absurd h (by simp)
          · injection h with h1 h2 h3 h4 h5 h6
            subst h1
            subst h3
            exact ⟨pyMin1_mem _ _ _,
              pyMin1_le (fun x : NormalizedOffer => duration_to_minutes x.duration)
                _ _⟩
  · intro t ch fa di mn mx h
    unfold summarize_skyexperts at h
    split at h
    · exact absurd h (by simp)
    · split at h
      · rename_i p ps heq
        rw [heq]
        injection h with h1 h2 h3 h4 h5 h6
        subst h3
        exact ⟨pyMin1_mem _ _ _, pyMin1_le pairDurationKey _ _⟩
      · split at h
        · exact absurd h (by simp)
        · split at h
          · exact absurd h (by simp)
          · exact absurd h (by simp)

/-- C4 (amended): in both modes every direct entry has zero stops on every
leg-group it represents and the list is capped at 3; in one-way mode the
direct entries are drawn from the top-5 subset in its ranked price order
(a sublist of `all_flights`), but in round-trip mode they are drawn from
the *full pair list in input order* (a sublist of the pair list), not from
the top-5 price ranking. -/
theorem C4_direct_spec (api : ApiData) :
    (∀ t ch fa di mn mx,
        summarize_skyexperts api = OfferSummary.oneway t ch fa di mn mx →
        List.Sublist di t ∧ di.length ≤ 3 ∧ ∀ o ∈ di, o.stops = 0) ∧
    (∀ t ch fa di mn mx,
        summarize_skyexperts api = OfferSummary.roundtrip t ch fa di mn mx →
        List.Sublist di (buildPairs api.currency_sign api.flights_data) ∧
          di.length ≤ 3 ∧ ∀ p ∈ di, p.outbound.stops = 0 ∧ p.ret.stops = 0) := by
  constructor
  · intro t ch fa di mn mx h
    unfold summarize_skyexperts at h
    split at h
    · exact absurd h (by simp)
    · split at h
      · exact absurd h (by simp)
      · split at h
        · exact absurd h (by simp)
        · split at h
          · exact absurd h (by simp)
          · injection h with h1 h2 h3 h4 h5 h6
            subst h1
            subst h4
            refine ⟨List.Sublist.trans (List.take_sublist 3 _)
              (List.filter_sublist _), ?_, ?_⟩
            · rw [List.length_take]
              exact min_le_left _ _
            · intro o ho
              have hm := List.mem_of_mem_take ho
              have := (List.mem_filter.mp hm).2
              simpa using this
  · intro t ch fa di mn mx h
    unfold summarize_skyexperts at h
    split at h
    · exact absurd h (by simp)
    · split at h
      · rename_i p ps heq
        rw [heq]
        injection h with h1 h2 h3 h4 h5 h6
        subst h4
        refine ⟨List.Sublist.trans (List.take_sublist 3 _)
          (List.filter_sublist _), ?_, ?_⟩
        · rw [List.length_take]
          exact min_le_left _ _
        · intro q hq
          have hm := List.mem_of_mem_take hq
          have := (List.mem_filter.mp hm).2
          rw [Bool.and_eq_true] at this
          exact ⟨by simpa using this.1, by simpa using this.2⟩
      · split at h
        · exact absurd h (by simp)
        · split at h
          · exact absurd h (by simp)
          · exact absurd h (by simp)

/-! ### Concrete offers for counterexamples and witnesses -/

/-- A direct (single) leg. -/
def legA : Leg :=
  Leg.mk "AAA" "CityA" "2025-01-01" "10:00" "BBB" "CityB" "2025-01-01" "14:00"
    (some "XY Air")

/-- A well-formed one-leg-group offer with the given price and group
total time in minutes. -/
def oneWayOffer (price : ℚ) (tt : Int) : RawOffer :=
  RawOffer.mk ["XY"] price [LegGroup.mk [legA] tt]

/-- A well-formed two-leg-group (round-trip) direct offer. -/
def rtOffer (price : ℚ) : RawOffer :=
  RawOffer.mk ["XY"] price [LegGroup.mk [legA] 100, LegGroup.mk [legA] 100]

/-- Six one-way offers: prices 1..6, the five cheapest lasting 100 minutes
and the most expensive lasting 10 minutes. -/
def cexApiC3 : ApiData :=
  ApiData.mk [oneWayOffer 1 100, oneWayOffer 2 100, oneWayOffer 3 100,
    oneWayOffer 4 100, oneWayOffer 5 100, oneWayOffer 6 10] "£"

/-- Two fully-direct round-trip offers, the pricier one first in input
order. -/
def cexApiC4 : ApiData := ApiData.mk [rtOffer 50, rtOffer 10] "£"

/-- C3 counterexample: for `cexApiC3` (one-way mode) the summary's fastest
entry lasts 100 minutes, although the full normalized outbound set contains
a 10-minute offer — the fastest is computed over the price-ranked top-5
subset only, not over the entire set as the claim states. -/
theorem C3_counterexample :
    (summarize_skyexperts cexApiC3).fastestDurationKey = some 100 ∧
      (outboundOnly cexApiC3.currency_sign cexApiC3.flights_data).map
        (fun o => duration_to_minutes o.duration) =
        [100, 100, 100, 100, 100, 10] ∧
      ¬ ((100 : Int) ≤ 10) :=
  ⟨rfl, rfl, by decide⟩

/-- C4 counterexample: for `cexApiC4` (round-trip mode) the direct list
comes out in input order `[50, 10]` while the ranked top-5 order is
`[10, 50]` — the direct entries do not appear in the ranked price order of
the top-5 subset, and are not drawn from it. -/
theorem C4_counterexample :
    (summarize_skyexperts cexApiC4).directOutboundPrices = [50, 10] ∧
      (summarize_skyexperts cexApiC4).rankedOutboundPrices = [10, 50] ∧
      ¬ ((50 : ℚ) ≤ 10) :=
  ⟨rfl, rfl, by decide⟩

/-- Witness for C2 at a concrete batch that qualifies for round-trip mode. -/
theorem C2_witness :
    (∀ f ∈ cexApiC4.flights_data, f.airlinelists ≠ []) ∧
      ((summarize_skyexperts cexApiC4).isRoundTrip = true ↔
        ∃ f ∈ cexApiC4.flights_data, 2 ≤ f.outboundInboundlist.length ∧
          (f.outboundInboundlist.getD 0 default).flightlist ≠ [] ∧
          (f.outboundInboundlist.getD 1 default).flightlist ≠ []) :=
  ⟨by decide, C2_roundtrip_mode_iff cexApiC4 (by decide)⟩

/-- The normalized form of `oneWayOffer 1 100`. -/
def w1 : NormalizedOffer :=
  { airline := "XY", airline_name := "XY Air", price := 1, duration := "1h 40m",
    stops := 0, stops_detail := [], dep_code := "AAA", dep_city := "CityA",
    dep_date := "2025-01-01", dep_time := "10:00", arr_code := "BBB",
    arr_city := "CityB", arr_date := "2025-01-01", arr_time := "14:00" }

/-- A single-offer one-way batch whose summary is
`oneway [w1] w1 w1 [w1] 1 1`. -/
def apiW : ApiData := ApiData.mk [oneWayOffer 1 100] "£"

/-- Witness for C3: the one-way half applied at `apiW`. -/
theorem C3_witness :
    w1 ∈ [w1] ∧ ∀ o ∈ [w1],
      duration_to_minutes w1.duration ≤ duration_to_minutes o.duration :=
  (C3_fastest_scope apiW).1 [w1] w1 w1 [w1] 1 1 rfl

def w50 : NormalizedOffer := { w1 with price := 50 }

def w10 : NormalizedOffer := { w1 with price := 10 }

/-- Witness for C4: the round-trip half applied at `cexApiC4`, whose direct
list is the full (input-ordered) pair list. -/
theorem C4_witness :
    List.Sublist [OfferPair.mk w50 w50, OfferPair.mk w10 w10]
        (buildPairs cexApiC4.currency_sign cexApiC4.flights_data) ∧
      ([OfferPair.mk w50 w50, OfferPair.mk w10 w10] : List OfferPair).length ≤ 3 ∧
      ∀ p ∈ [OfferPair.mk w50 w50, OfferPair.mk w10 w10],
        p.outbound.stops = 0 ∧ p.ret.stops = 0 :=
  (C4_direct_spec cexApiC4).2 [OfferPair.mk w10 w10, OfferPair.mk w50 w50]
    (OfferPair.mk w10 w10) (OfferPair.mk w50 w50)
    [OfferPair.mk w50 w50, OfferPair.mk w10 w10] 10 50 rfl

/-! ### The 99999 duration sentinel (C10) -/

/-- A normalized offer whose duration cell is not in `"{h}h {m}m"` shape
(not producible by `parse_segment`, which always formats the duration from
an integer; the sentinel matters for the ranking key itself). -/
def malformedDurationOffer : NormalizedOffer :=
  { w1 with price := 100, duration := "N/A" }

/-- A well-formed offer of exactly 99999 actual minutes. -/
def slowOffer : NormalizedOffer :=
  { w1 with price := 90, duration := formatDuration 99999 }

/-- C10: a duration string that fails to parse as `"{h}h {m}m"` gets the
*finite* sentinel key of exactly 99999 minutes (the same
`duration_to_minutes` is defined verbatim in both summary modes); a
well-formed offer of exactly 99999 actual minutes (`"1666h 39m"`) gets the
same key, so under the fastest-offer selection (`min` keeps the first of
equal keys) it ties with — and does not sort before — a malformed-duration
offer that precedes it. -/
theorem C10_sentinel (s : String) (h : hmParse s = none) :
    duration_to_minutes s = 99999 ∧
      formatDuration 99999 = "1666h 39m" ∧
      duration_to_minutes "1666h 39m" = 99999 ∧
      pyMin1 (fun o : NormalizedOffer => duration_to_minutes o.duration)
        malformedDurationOffer [slowOffer] = malformedDurationOffer := by
  refine ⟨?_, rfl, rfl, rfl⟩
  unfold duration_to_minutes
  rw [h]
  rfl

/-- Witness for C10 at the unparseable duration cell "N/A". -/
theorem C10_witness :
    hmParse "N/A" = none ∧
      (duration_to_minutes "N/A" = 99999 ∧
        formatDuration 99999 = "1666h 39m" ∧
        duration_to_minutes "1666h 39m" = 99999 ∧
        pyMin1 (fun o : NormalizedOffer => duration_to_minutes o.duration)
          malformedDurationOffer [slowOffer] = malformedDurationOffer) :=
  ⟨rfl, C10_sentinel "N/A" rfl⟩
